import Mathlib

/-!
# Verification of the `inngest-ctl` CLI

Shallow embedding of the TypeScript sources of `inngest-ctl` (a CLI client
for the Inngest REST API) and proofs about its behaviour.

Modelling conventions:
* JS strings are Lean `String`s; a value that may be `undefined`/`null`
  is an `Option`.
* JS falsiness on strings (`undefined`, `null` and `""` are falsy) is
  `strFalsy`; on optional booleans it is `boolTruthy`; on optional
  integers `0` is falsy (`intTruthy`).
* JS numbers that the CLI manipulates are exact integers (`Int`/`Nat`);
  the CLI only ever adds, subtracts, multiplies and compares them.
* Environment behaviour that the code calls into is passed as an explicit
  function argument: `parseDate` stands for `new Date(s).getTime()`,
  `isoOfMs` for `new Date(ms).toISOString()`, `fmtTime` for the locale
  clock-time rendering used by `formatTimestamp`.
* A function that can `throw` returns `Except`.
-/

set_option linter.unusedVariables false
set_option maxRecDepth 16384

namespace InngestCtl

/-! ## JS primitives -/

/-- JS falsiness of an optional string: `undefined`, `null` and `""` are
falsy, every other string is truthy. -/
def strFalsy : Option String → Bool
  | none => true
  | some s => s == ""

/-- JS truthiness of an optional string. -/
def strTruthy (o : Option String) : Bool := !(strFalsy o)

/-- JS truthiness of an optional boolean (`undefined` is falsy). -/
def boolTruthy : Option Bool → Bool
  | some b => b
  | none => false

/-- JS truthiness of an optional number (`undefined` and `0` are falsy). -/
def intTruthy : Option Int → Bool
  | some n => !(n == 0)
  | none => false

/-- JS `a || b` on optional strings: `b` when `a` is falsy, else `a`. -/
def jsOr (a b : Option String) : Option String :=
  if strFalsy a then b else a

/-- JS `a || b || ""` on optional strings, as used by the normalizers. -/
def jsOrEmpty (a b : Option String) : String := (jsOr a b).getD ""

/-- JS template interpolation of a possibly-`undefined` string
(`` `${x}` `` renders `undefined` as the text `"undefined"`). -/
def jsShowOpt : Option String → String
  | none => "undefined"
  | some s => s

/-- JS `s.startsWith(p)`. -/
def strStartsWith (s p : String) : Bool := p.data.isPrefixOf s.data

/-- JS `s.slice(0, n)`. -/
def strTake (s : String) (n : Nat) : String := String.mk (s.data.take n)

/-! ## cancel.ts — `parseTime` -/

/-- JS `parseInt(s, 10)` on a digit string: the denoted natural number. -/
def digitsToNat (cs : List Char) : Nat :=
  cs.foldl (fun acc c => acc * 10 + (c.toNat - 48)) 0

/-- The regex match `input.match(/^(\d+)([smhd])$/)` of `parseTime`: on a
match, the captured integer value and the unit character. -/
def relMatch (s : String) : Option (Nat × Char) :=
  match s.data.reverse with
  | [] => none
  | u :: rds =>
    let ds := rds.reverse
    if !ds.isEmpty && ds.all Char.isDigit &&
        (u == 's' || u == 'm' || u == 'h' || u == 'd') then
      some (digitsToNat ds, u)
    else
      none

/-- `parseTime` from `cancel.ts` (lines 52–90). `now` is the value of
`Date.now()` at call time and `isoOfMs` models `new Date(ms).toISOString()`.
The source first treats any input containing `"T"` or `"-"` as an ISO
literal and returns it unchanged; otherwise it matches the relative-time
regex and subtracts the duration from `now`. -/
def parseTime (isoOfMs : Int → String) (now : Int) (input : String) :
    Except String String :=
  if input.data.contains 'T' || input.data.contains '-' then
    .ok input
  else
    match relMatch input with
    | none =>
      .error ("Invalid time format: " ++ input ++
        ". Use ISO format or relative time (e.g., 1h, 30m, 2d)")
    | some (value, u) =>
      match u with
      | 's' => .ok (isoOfMs (now - (value : Int) * 1000))
      | 'm' => .ok (isoOfMs (now - (value : Int) * 60 * 1000))
      | 'h' => .ok (isoOfMs (now - (value : Int) * 60 * 60 * 1000))
      | 'd' => .ok (isoOfMs (now - (value : Int) * 24 * 60 * 60 * 1000))
      | c => .error ("Unknown time unit: " ++ String.mk [c])

/-- Milliseconds per unit, for stating theorems about `parseTime`. -/
def unitMs : Char → Int
  | 's' => 1000
  | 'm' => 60 * 1000
  | 'h' => 60 * 60 * 1000
  | 'd' => 24 * 60 * 60 * 1000
  | _ => 0

/-- Spec-side predicate (the claims speak of "an ISO-8601 literal"): a
string shaped like an extended ISO-8601 timestamp
`YYYY-MM-DDTHH:MM:SS...` — four digits, `-`, two digits, `-`, two digits,
`T`, then anything. Only the date prefix matters for the proofs. -/
def isIsoLiteral (s : String) : Bool :=
  match s.data with
  | y1 :: y2 :: y3 :: y4 :: '-' :: m1 :: m2 :: '-' :: d1 :: d2 :: 'T' :: _ =>
    y1.isDigit && y2.isDigit && y3.isDigit && y4.isDigit &&
      m1.isDigit && m2.isDigit && d1.isDigit && d2.isDigit
  | _ => false

/-! ## client.ts -/

/-- The process environment variables the client reads. -/
structure Env where
  signingKey : Option String := none
  eventKey : Option String := none
  devUrl : Option String := none
deriving DecidableEq

/-- `ClientOptions` from `client.ts`. -/
structure ClientOptions where
  dev : Option Bool := none
  port : Option Int := none
deriving DecidableEq

/-- `ClientConfig` from `client.ts`. -/
structure ClientConfig where
  baseUrl : String
  signingKey : Option String := none
  eventKey : Option String := none
  dev : Option Bool := none
deriving DecidableEq

/-- The `.replace(/\/$/, "")` in `getDevUrl`: remove one trailing slash. -/
def stripTrailingSlash (s : String) : String :=
  if s.data.getLast? == some '/' then String.mk s.data.dropLast else s

/-- `getDevUrl` from `client.ts`: environment override first, then the
explicit port, then the default port 8288. -/
def getDevUrl (env : Env) (port : Option Int) : String :=
  if strTruthy env.devUrl then stripTrailingSlash (env.devUrl.getD "")
  else "http://localhost:" ++ toString (port.getD 8288)

/-- `createClient` from `client.ts`. -/
def createClient (env : Env) (options : ClientOptions) : ClientConfig :=
  { baseUrl := if boolTruthy options.dev then getDevUrl env options.port
               else "https://api.inngest.com"
    signingKey := env.signingKey
    eventKey := env.eventKey
    dev := options.dev }

/-- Errors surfaced by the embedded operations. `jsTypeError` models the
TypeError thrown by a JS property access on `null`/`undefined`. -/
inductive CliErr where
  | authMissing (msg : String)
  | httpError (status : Nat) (msg : String)
  | notFound (msg : String)
  | jsTypeError (msg : String)
deriving DecidableEq

/-- One `fetch` round trip, as seen by `apiRequest`: the HTTP status, the
raw body text, the result of `JSON.parse` on that body when the status is
not ok (`none` = the parse throws; `some none` = JSON without a usable
`error` field; `some (some m)` = JSON with `error` field `m`), and the
parsed success payload `response.json()`. -/
structure FetchResult (α : Type) where
  status : Nat
  bodyText : String
  errorField : Option (Option String) := none
  payload : α
deriving DecidableEq

/-- JS `response.ok`: status in the 2xx range. -/
def responseOk (status : Nat) : Bool := 200 ≤ status && status ≤ 299

/-- The error-message selection of `apiRequest` on a non-ok response:
`parsed.error || errorBody` guarded by the `try`/`catch` around
`JSON.parse`. -/
def remoteMessage {α : Type} (resp : FetchResult α) : String :=
  match resp.errorField with
  | some (some e) => if e == "" then resp.bodyText else e
  | _ => resp.bodyText

/-- `apiRequest` from `client.ts` (lines 52–92). The signing-key check
runs before the `fetch`; the fetch itself is the environment and is passed
in as `resp`. -/
def apiRequest {α : Type} (client : ClientConfig) (resp : FetchResult α) :
    Except CliErr α :=
  if !boolTruthy client.dev && strFalsy client.signingKey then
    .error (.authMissing
      "INNGEST_SIGNING_KEY environment variable is required for API requests")
  else if !responseOk resp.status then
    .error (.httpError resp.status
      ("API request failed (" ++ toString resp.status ++ "): " ++
        remoteMessage resp))
  else
    .ok resp.payload

/-! ## runs.ts -/

/-- Runtime shape of one element of the `GET /v1/runs/:id` payload. The TS
interface `RawRun` declares only the snake_case spellings; a runtime
object may carry either spelling, and reading an absent property yields
`undefined` (`none`). The `output` payload is abstracted as the lines of
its 2-space `JSON.stringify` rendering. -/
structure RawRun where
  run_id : Option String := none
  runId : Option String := none
  status : Option String := none
  function_id : Option String := none
  functionId : Option String := none
  function_version : Option Int := none
  functionVersion : Option Int := none
  event_id : Option String := none
  eventId : Option String := none
  run_started_at : Option String := none
  startedAt : Option String := none
  ended_at : Option String := none
  endedAt : Option String := none
  output : Option (List String) := none
deriving DecidableEq

/-- The normalized `RunStatus` result of `getRun`. TS declares `runId`,
`status` and `functionId` as `string`, but the mapping copies whatever is
present at runtime, so every field is an `Option` here. -/
structure RunStatus where
  runId : Option String := none
  status : Option String := none
  functionId : Option String := none
  functionVersion : Option Int := none
  eventId : Option String := none
  startedAt : Option String := none
  endedAt : Option String := none
  output : Option (List String) := none
deriving DecidableEq

/-- The field mapping inside `getRun` (`runs.ts` lines 75–84): it reads
only the snake_case spellings of the raw object. -/
def normalizeRun (raw : RawRun) : RunStatus :=
  { runId := raw.run_id
    status := raw.status
    functionId := raw.function_id
    functionVersion := raw.function_version
    eventId := raw.event_id
    startedAt := raw.run_started_at
    endedAt := raw.ended_at
    output := raw.output }

/-- `getRun` (`runs.ts` lines 59–85) after the HTTP layer: `respData` is
the `data` field of the parsed response, `none` when the server sent
`data: null` (or no `data`). -/
def getRun (runId : String) (respData : Option RawRun) :
    Except CliErr RunStatus :=
  match respData with
  | none => .error (.notFound ("Run not found: " ++ runId))
  | some raw => .ok (normalizeRun raw)

/-- Runtime shape of one element of the `GET /v1/runs/:id/jobs` payload;
the TS interface `RawJob` declares both spellings of each field. -/
structure RawJob where
  job_id : Option String := none
  jobId : Option String := none
  step_id : Option String := none
  stepId : Option String := none
  status : Option String := none
  started_at : Option String := none
  startedAt : Option String := none
  ended_at : Option String := none
  endedAt : Option String := none
  output : Option String := none
  error : Option String := none
deriving DecidableEq

/-- The normalized `RunJob` shape. -/
structure RunJob where
  jobId : String
  stepId : String
  status : Option String := none
  startedAt : Option String := none
  endedAt : Option String := none
  output : Option String := none
  error : Option String := none
deriving DecidableEq

/-- One element of `normalizeJobs` (`runs.ts` lines 101–111): defensive
`snake_case || camelCase` double-lookup on each renamed field. -/
def normalizeJob (job : RawJob) : RunJob :=
  { jobId := jsOrEmpty job.job_id job.jobId
    stepId := jsOrEmpty job.step_id job.stepId
    status := job.status
    startedAt := jsOr job.started_at job.startedAt
    endedAt := jsOr job.ended_at job.endedAt
    output := job.output
    error := job.error }

/-- `normalizeJobs` from `runs.ts`. -/
def normalizeJobs (raw : List RawJob) : List RunJob := raw.map normalizeJob

/-! ## events.ts -/

/-- Runtime shape of a raw event object. -/
structure RawEvent where
  id : Option String := none
  name : Option String := none
  received_at : Option String := none
  receivedAt : Option String := none
  data : Option String := none
  user : Option String := none
  ts : Option Int := none
deriving DecidableEq

/-- The normalized `EventDetails` shape. The `data` and `user` payloads
are abstracted as their serialized text. -/
structure EventDetails where
  id : Option String := none
  name : Option String := none
  receivedAt : Option String := none
  data : Option String := none
  user : Option String := none
deriving DecidableEq

/-- `getEvent` (`events.ts` lines 159–178) after the HTTP layer. NOTE:
unlike `getRun`, the source has no null check on `response.data` — on a
`data: null` payload the access `raw.id` throws a TypeError, which is
modelled by the `.jsTypeError` branch. `isoOfMs` models
`new Date(ts).toISOString()` in the `receivedAt` fallback chain. -/
def getEvent (isoOfMs : Int → String) (eventId : String)
    (respData : Option RawEvent) : Except CliErr EventDetails :=
  match respData with
  | none => .error (.jsTypeError "Cannot read properties of null")
  | some raw =>
    .ok { id := raw.id
          name := raw.name
          receivedAt := jsOr (jsOr raw.received_at raw.receivedAt)
            (some (isoOfMs (raw.ts.getD 0)))
          data := raw.data
          user := raw.user }

/-- Runtime shape of one element of the `GET /v1/events/:id/runs`
payload; the TS interface `RawEventRun` declares both spellings
(`function_version` is a string here, unlike in `runs.ts`). -/
structure RawEventRun where
  run_id : Option String := none
  runId : Option String := none
  status : Option String := none
  function_id : Option String := none
  functionId : Option String := none
  function_version : Option String := none
  functionVersion : Option String := none
  started_at : Option String := none
  startedAt : Option String := none
  ended_at : Option String := none
  endedAt : Option String := none
  output : Option String := none
deriving DecidableEq

/-- The normalized `EventRun` shape from `events.ts`. -/
structure EventRun where
  runId : String
  status : Option String := none
  functionId : String
  functionVersion : Option String := none
  startedAt : Option String := none
  endedAt : Option String := none
  output : Option String := none
deriving DecidableEq

/-- One element of `normalizeEventRuns` (`events.ts` lines 225–235):
defensive `snake_case || camelCase` double-lookup on each renamed
field. -/
def normalizeEventRun (run : RawEventRun) : EventRun :=
  { runId := jsOrEmpty run.run_id run.runId
    status := run.status
    functionId := jsOrEmpty run.function_id run.functionId
    functionVersion := jsOr run.function_version run.functionVersion
    startedAt := jsOr run.started_at run.startedAt
    endedAt := jsOr run.ended_at run.endedAt
    output := run.output }

/-- `normalizeEventRuns` from `events.ts`. -/
def normalizeEventRuns (raw : List RawEventRun) : List EventRun :=
  raw.map normalizeEventRun

/-! ## output.ts — ANSI constants (the `c` object) -/

def cReset : String := "\x1b[0m"
def cBold : String := "\x1b[1m"
def cDim : String := "\x1b[2m"
def cBlack : String := "\x1b[30m"
def cRed : String := "\x1b[31m"
def cGreen : String := "\x1b[32m"
def cYellow : String := "\x1b[33m"
def cBlue : String := "\x1b[34m"
def cMagenta : String := "\x1b[35m"
def cCyan : String := "\x1b[36m"
def cWhite : String := "\x1b[37m"
def cGray : String := "\x1b[90m"
def cBgRed : String := "\x1b[41m"
def cBgYellow : String := "\x1b[43m"
def cBgGreen : String := "\x1b[42m"
def cBgBlue : String := "\x1b[44m"

/-! ## Decimal rendering of the numbers the formatter interpolates -/

/-- The decimal digit characters. -/
def digitChar (n : Nat) : Char :=
  match n with
  | 0 => '0' | 1 => '1' | 2 => '2' | 3 => '3' | 4 => '4'
  | 5 => '5' | 6 => '6' | 7 => '7' | 8 => '8' | _ => '9'

/-- Decimal digits of a natural number, most significant first. -/
def natToDigits (n : Nat) : List Char :=
  if h : n < 10 then [digitChar n]
  else natToDigits (n / 10) ++ [digitChar (n % 10)]
decreasing_by exact Nat.div_lt_self (by omega) (by omega)

/-- JS template interpolation of an integer. -/
def renderInt (i : Int) : String :=
  if i < 0 then String.mk ('-' :: natToDigits (-i).toNat)
  else String.mk (natToDigits i.toNat)

/-- `(num / den).toFixed(2)` of the formatter, modelled with exact integer
arithmetic (the exact rounding of JS floats is abstracted; only the shape
digits-dot-digits matters for the theorems). -/
def renderFixed2 (num den : Int) : String :=
  let scaled : Int := num * 100 / den
  let ip : Int := scaled / 100
  let fp : Nat := (scaled % 100).natAbs
  renderInt ip ++ "." ++ String.mk [digitChar (fp / 10 % 10), digitChar (fp % 10)]

/-! ## output.ts — format helpers -/

/-- JS `s.toLowerCase()` (ASCII range, which is all the formatter
compares against). -/
def jsToLower (s : String) : String := String.mk (s.data.map Char.toLower)

/-- JS `s.toUpperCase()` (ASCII range). -/
def jsToUpper (s : String) : String := String.mk (s.data.map Char.toUpper)

/-- `formatRunStatus` from `output.ts` (lines 323–338): the status badge. -/
def formatRunStatus (status : String) : String :=
  let s := jsToLower status
  if s == "completed" || s == "success" then
    cBgGreen ++ cBlack ++ cBold ++ " OK  " ++ cReset
  else if s == "failed" || s == "error" then
    cBgRed ++ cBlack ++ cBold ++ " ERR " ++ cReset
  else if s == "running" || s == "pending" then
    cBgYellow ++ cBlack ++ cBold ++ " RUN " ++ cReset
  else if s == "cancelled" then
    cDim ++ "[CXL]" ++ cReset
  else
    cDim ++ "[" ++ jsToUpper (strTake status 3) ++ "]" ++ cReset

/-- `formatTimestamp` from `output.ts` (lines 340–346). The locale
clock-time plus milliseconds rendering of the parsed date is the
environment and is abstracted as `fmtTime ts`. -/
def formatTimestamp (fmtTime : String → String) (ts : String) : String :=
  if ts == "" then "" else cGray ++ fmtTime ts ++ cReset

/-- `formatDuration` from `output.ts` (lines 360–366); `parseDate` models
`new Date(s).getTime()`. -/
def formatDuration (parseDate : String → Int) (start endTs : String) : String :=
  let ms := parseDate endTs - parseDate start
  if ms < 1 then cYellow ++ "<1ms" ++ cReset
  else if ms < 1000 then cYellow ++ renderInt ms ++ "ms" ++ cReset
  else if ms < 60000 then cYellow ++ renderFixed2 ms 1000 ++ "s" ++ cReset
  else cYellow ++ renderFixed2 ms 60000 ++ "m" ++ cReset

/-- `calculateDuration` from `output.ts` (lines 368–383): elapsed time of
a run, against `now` when there is no end timestamp yet; appends
`" (running)"` exactly when the end timestamp is falsy. -/
def calculateDuration (parseDate : String → Int) (now : Int)
    (start endOpt : Option String) : String :=
  if strFalsy start then cDim ++ "not started" ++ cReset
  else
    let startTime := parseDate (start.getD "")
    let endTime := if strTruthy endOpt then parseDate (endOpt.getD "") else now
    let ms := endTime - startTime
    let isRunning := strFalsy endOpt
    let pre := if isRunning then cYellow else cGreen
    let suffix := if isRunning then " (running)" else ""
    if ms < 1000 then pre ++ renderInt ms ++ "ms" ++ suffix ++ cReset
    else if ms < 60000 then pre ++ renderFixed2 ms 1000 ++ "s" ++ suffix ++ cReset
    else if ms < 3600000 then pre ++ renderFixed2 ms 60000 ++ "m" ++ suffix ++ cReset
    else pre ++ renderFixed2 ms 3600000 ++ "h" ++ suffix ++ cReset

/-- Concatenation of the chunks a formatter emits (console output). -/
def concatStrs : List String → String
  | [] => ""
  | s :: rest => s ++ concatStrs rest

/-- `truncate` from `output.ts`. -/
def truncateStr (s : String) (maxLen : Nat) : String :=
  if s.data.length ≤ maxLen then s else strTake s (maxLen - 3) ++ "..."

/-- The chunks `printRunStatus` (`output.ts` lines 264–296) writes, in
order; `"\n"` chunks separate the `console.log` calls. A
runtime-`undefined` string field renders as the template text
`"undefined"` (`jsShowOpt`). -/
def printRunStatusChunks (parseDate : String → Int) (fmtTime : String → String)
    (now : Int) (run : RunStatus) : List String :=
  [cBold, "Run Status", cReset, "\n", "\n",
   cDim, "Run ID:", cReset, "     ", cCyan, jsShowOpt run.runId, cReset, "\n",
   cDim, "Status:", cReset, "     ", formatRunStatus (jsShowOpt run.status), "\n",
   cDim, "Function:", cReset, "   ", cMagenta, jsShowOpt run.functionId, cReset,
   if intTruthy run.functionVersion then " v" ++ renderInt (run.functionVersion.getD 0) else "",
   "\n"]
  ++ (if strTruthy run.eventId then
        [cDim, "Event ID:", cReset, "   ", run.eventId.getD "", "\n"]
      else [])
  ++ (if strTruthy run.startedAt then
        [cDim, "Started:", cReset, "    ",
         formatTimestamp fmtTime (run.startedAt.getD ""), "\n"]
      else [])
  ++ (if strTruthy run.endedAt then
        [cDim, "Ended:", cReset, "      ",
         formatTimestamp fmtTime (run.endedAt.getD ""), "\n"]
      else [])
  ++ [cDim, "Duration:", cReset, "   ",
      calculateDuration parseDate now run.startedAt run.endedAt, "\n"]
  ++ (match run.output with
      | some lines =>
        ["\n", cDim, "Output:", cReset, "\n"] ++
          lines.map (fun line => "  " ++ cWhite ++ line ++ cReset ++ "\n")
      | none => [])

/-- The full text `printRunStatus` writes. -/
def printRunStatusStr (parseDate : String → Int) (fmtTime : String → String)
    (now : Int) (run : RunStatus) : String :=
  concatStrs (printRunStatusChunks parseDate fmtTime now run)

/-- The chunks `printEventRuns` (`output.ts` lines 214–231) writes. -/
def printEventRunsChunks (parseDate : String → Int) (fmtTime : String → String)
    (runs : List EventRun) : List String :=
  if runs.length == 0 then
    [cYellow, "No runs found for this event", cReset, "\n"]
  else
    [cBold, "Runs (", renderInt runs.length, ")", cReset, "\n", "\n"] ++
    runs.flatMap (fun run =>
      let ts := if strTruthy run.startedAt then
          formatTimestamp fmtTime (run.startedAt.getD "") else ""
      let duration := if strTruthy run.startedAt && strTruthy run.endedAt then
          formatDuration parseDate (run.startedAt.getD "") (run.endedAt.getD "")
        else ""
      [ts, " ", formatRunStatus (jsShowOpt run.status), " ",
       cCyan, truncateStr run.functionId 40, cReset, " ",
       cDim, strTake run.runId 12, cReset, " ", duration, "\n"])

/-- The full text `printEventRuns` writes. -/
def printEventRunsStr (parseDate : String → Int) (fmtTime : String → String)
    (runs : List EventRun) : String :=
  concatStrs (printEventRunsChunks parseDate fmtTime runs)

/-! ## output.ts — structural classification of `printPretty` -/

/-- A runtime JS value as the type guards of `output.ts` see it: either a
non-array object — described by which keys it has, which of those hold
numbers, and which hold arrays — or an array, described by the key lists
of its elements. -/
inductive JsVal where
  | obj (keys : List String) (numberKeys : List String) (arrayKeys : List String)
  | arr (elemKeys : List (List String))
deriving DecidableEq

/-- `isEventResult` (`output.ts` lines 100–108); `"ids" in x` is false for
an array value. -/
def isEventResultG : JsVal → Bool
  | .obj keys _ arrayKeys =>
    keys.contains "ids" && keys.contains "status" && arrayKeys.contains "ids"
  | .arr _ => false

/-- `isEventListResult` (`output.ts` lines 110–118). -/
def isEventListResultG : JsVal → Bool
  | .obj keys _ arrayKeys =>
    keys.contains "events" && keys.contains "meta" && arrayKeys.contains "events"
  | .arr _ => false

/-- `isEventDetails` (`output.ts` lines 120–129). -/
def isEventDetailsG : JsVal → Bool
  | .obj keys _ _ =>
    keys.contains "id" && keys.contains "name" && keys.contains "receivedAt" &&
      !keys.contains "events"
  | .arr _ => false

/-- `isEventRunArray` (`output.ts` lines 131–137): an array that is empty
or whose first element has `runId` and `functionId`. -/
def isEventRunArrayG : JsVal → Bool
  | .obj .. => false
  | .arr [] => true
  | .arr (e0 :: _) => e0.contains "runId" && e0.contains "functionId"

/-- `isRunJobArray` (`output.ts` lines 139–146): a NON-EMPTY array whose
first element has `jobId` and `stepId`. -/
def isRunJobArrayG : JsVal → Bool
  | .obj .. => false
  | .arr [] => false
  | .arr (e0 :: _) => e0.contains "jobId" && e0.contains "stepId"

/-- `isCancelResult` (`output.ts` lines 148–155). -/
def isCancelResultG : JsVal → Bool
  | .obj keys numberKeys _ =>
    keys.contains "cancelled" && numberKeys.contains "cancelled"
  | .arr _ => false

/-- `isRunStatus` (`output.ts` lines 157–166); the `!Array.isArray` test
excludes arrays. -/
def isRunStatusG : JsVal → Bool
  | .obj keys _ _ =>
    keys.contains "runId" && keys.contains "status" && keys.contains "functionId"
  | .arr _ => false

/-- Which template `printPretty` (`output.ts` lines 79–97) dispatches
to, in the source's guard order. -/
inductive PrettyBranch where
  | eventResult | eventList | eventDetails | eventRuns
  | runStatus | runJobs | cancelResult | rawJson
deriving DecidableEq

/-- The guard chain of `printPretty`. -/
def printPrettyBranch (v : JsVal) : PrettyBranch :=
  if isEventResultG v then .eventResult
  else if isEventListResultG v then .eventList
  else if isEventDetailsG v then .eventDetails
  else if isEventRunArrayG v then .eventRuns
  else if isRunStatusG v then .runStatus
  else if isRunJobArrayG v then .runJobs
  else if isCancelResultG v then .cancelResult
  else .rawJson

/-! ## output.ts — `printOutput` mode selection -/

/-- The options `printOutput` receives. -/
structure OutputOptions where
  pretty : Option Bool := none
  output : Option String := none
deriving DecidableEq

/-- Which of the three output modes runs. -/
inductive OutputMode where
  | writeFile (path : String)
  | prettyText
  | jsonStdout
deriving DecidableEq

/-- The mode selection of `printOutput` (`output.ts` lines 38–56): a
truthy `output` path writes the JSON to that file and returns; otherwise
a truthy `pretty` prints the colorized text; otherwise the JSON goes to
stdout. Serialization itself is not modelled. -/
def printOutputMode {α : Type} (result : α) (options : OutputOptions) :
    OutputMode :=
  if strTruthy options.output then .writeFile (options.output.getD "")
  else if boolTruthy options.pretty then .prettyText
  else .jsonStdout

/-! ## cli.ts — argument parsing and command routing -/

/-- The record `parseNamedArgs` builds (a JS object used only through
key lookups; a later assignment to the same key overwrites). -/
def Record := List (String × String)

instance : DecidableEq Record := by
  unfold Record
  infer_instance

/-- `result[key] = value` on the record. -/
def setArg (r : Record) (key value : String) : Record :=
  r.filter (fun p => !(p.1 == key)) ++ [(key, value)]

/-- `parsed[key]` on the record (`undefined` when absent). -/
def getArg (r : Record) (key : String) : Option String :=
  (r.find? (fun p => p.1 == key)).map (fun p => p.2)

/-- The loop of `parseNamedArgs` (`cli.ts` lines 617–644). A `--key=value`
token is split at its first `=`; a bare `--key` consumes the next token as
its value only when that token exists and does not start with `--`;
otherwise the `else { i++ }` branch silently skips the token. -/
def parseNamedArgsGo : List String → Record → Record
  | [], acc => acc
  | [arg], acc =>
    if strStartsWith arg "--" then
      match arg.data.dropWhile (fun c => !(c == '=')) with
      | _ :: valChars =>
        setArg acc (String.mk ((arg.data.takeWhile (fun c => !(c == '='))).drop 2))
          (String.mk valChars)
      | [] => acc
    else
      acc
  | arg :: next :: rest2, acc =>
    if strStartsWith arg "--" then
      match arg.data.dropWhile (fun c => !(c == '=')) with
      | _ :: valChars =>
        parseNamedArgsGo (next :: rest2)
          (setArg acc (String.mk ((arg.data.takeWhile (fun c => !(c == '='))).drop 2))
            (String.mk valChars))
      | [] =>
        if !strStartsWith next "--" then
          parseNamedArgsGo rest2 (setArg acc (String.mk (arg.data.drop 2)) next)
        else
          parseNamedArgsGo (next :: rest2) acc
    else
      parseNamedArgsGo (next :: rest2) acc

/-- `parseNamedArgs` from `cli.ts`. -/
def parseNamedArgs (args : List String) : Record :=
  parseNamedArgsGo args []

/-- The domain call a handler is about to make once its argument checks
pass (the JSON parsing / file read / HTTP call that follows is the
environment and is outside this model). -/
inductive PendingOp where
  | sendEvent (name : String) (dataStr dataFile id env : Option String)
  | getEvent (eventId : String)
  | eventRuns (eventId : String)
  | listEvents (name limit : Option String)
  | getRunJobs (runId : String)
  | runsList (eventId : String)
  | runStatus (runId : String)
deriving DecidableEq

/-- Outcome of a command handler: usage text on a help branch (exit 0),
usage text on an empty subcommand list (exit 1), a one-line error via
`printError` followed by `process.exit(1)`, or the pending domain call. -/
inductive HandlerOutcome where
  | usageOk
  | usageError
  | errorExit (msg : String)
  | proceed (op : PendingOp)
deriving DecidableEq

/-- `handleEvents` from `cli.ts` (lines 367–471), up to the point where a
subcommand hands over to its domain call. -/
def handleEvents (args : List String) : HandlerOutcome :=
  match args with
  | [] => .usageError
  | subcommand :: subArgs =>
    if subcommand == "help" || subcommand == "--help" || subcommand == "-h" then
      .usageOk
    else if subcommand == "send" then
      let parsed := parseNamedArgs subArgs
      let name := getArg parsed "name"
      let dataStr := getArg parsed "data"
      let dataFile := getArg parsed "data-file"
      let id := getArg parsed "id"
      let env := getArg parsed "env"
      if strFalsy name then .errorExit "--name is required"
      else if strFalsy dataStr && strFalsy dataFile then
        .errorExit "--data or --data-file is required"
      else
        .proceed (.sendEvent (name.getD "") dataStr dataFile id env)
    else if subcommand == "get" then
      let eventId := subArgs.head?
      if strFalsy eventId then .errorExit "Event ID is required"
      else .proceed (.getEvent (eventId.getD ""))
    else if subcommand == "runs" then
      let eventId := subArgs.head?
      if strFalsy eventId then .errorExit "Event ID is required"
      else .proceed (.eventRuns (eventId.getD ""))
    else if subcommand == "list" then
      let parsed := parseNamedArgs subArgs
      .proceed (.listEvents (getArg parsed "name") (getArg parsed "limit"))
    else
      .errorExit ("Unknown events subcommand: " ++ subcommand)

/-- `handleRuns` from `cli.ts` (lines 473–534). -/
def handleRuns (args : List String) : HandlerOutcome :=
  match args with
  | [] => .usageError
  | subcommand :: subArgs =>
    if subcommand == "help" || subcommand == "--help" || subcommand == "-h" then
      .usageOk
    else if subcommand == "get" then
      let runId := subArgs.head?
      if strFalsy runId then .errorExit "Run ID is required"
      else .proceed (.getRunJobs (runId.getD ""))
    else if subcommand == "list" then
      let parsed := parseNamedArgs subArgs
      let eventId := getArg parsed "event"
      if strFalsy eventId then .errorExit "--event is required"
      else .proceed (.runsList (eventId.getD ""))
    else if subcommand == "status" then
      let runId := subArgs.head?
      if strFalsy runId then .errorExit "Run ID is required"
      else .proceed (.runStatus (runId.getD ""))
    else
      .errorExit ("Unknown runs subcommand: " ++ subcommand)

/-! ## General lemmas about the embedding -/

/-- `out.includes(pat)`: `pat` occurs as a contiguous substring of `s`. -/
def containsStr (s pat : String) : Prop := pat.data <:+: s.data

instance (s pat : String) : Decidable (containsStr s pat) :=
  List.decidableInfix pat.data s.data

theorem infix_append_left (a : List Char) {pat t : List Char}
    (h : pat <:+: t) : pat <:+: a ++ t :=
  h.trans (List.IsSuffix.isInfix (List.suffix_append a t))

theorem infix_concat_of_mem {L : List String} {s : String} (pat : String)
    (hs : s ∈ L) (h : pat.data <:+: s.data) :
    pat.data <:+: (concatStrs L).data := by
  induction L with
  | nil => cases hs
  | cons a t ih =>
    rcases List.mem_cons.mp hs with rfl | hmem
    · rw [concatStrs, String.data_append]
      exact h.trans (List.IsPrefix.isInfix (List.prefix_append _ _))
    · rw [concatStrs, String.data_append]
      exact infix_append_left _ (ih hmem)

theorem noParen_concatStrs {L : List String}
    (h : ∀ s ∈ L, '(' ∉ s.data) : '(' ∉ (concatStrs L).data := by
  induction L with
  | nil => intro hc; cases hc
  | cons a t ih =>
    rw [concatStrs, String.data_append]
    intro hc
    rcases List.mem_append.mp hc with hc | hc
    · exact h a (List.mem_cons_self a t) hc
    · exact ih (fun s hs => h s (List.mem_cons_of_mem a hs)) hc

theorem noParen_append {a b : String} (ha : '(' ∉ a.data)
    (hb : '(' ∉ b.data) : '(' ∉ (a ++ b).data := by
  rw [String.data_append]
  intro hc
  rcases List.mem_append.mp hc with hc | hc
  · exact ha hc
  · exact hb hc

theorem not_containsStr_of_noParen {s pat : String} (hp : '(' ∈ pat.data)
    (hs : '(' ∉ s.data) : ¬ containsStr s pat :=
  fun h => hs (h.subset hp)

theorem digitChar_ne_paren (n : Nat) : digitChar n ≠ '(' := by
  unfold digitChar
  split <;> decide

theorem natToDigits_ne_paren (n : Nat) : '(' ∉ natToDigits n := by
  induction n using Nat.strong_induction_on with
  | _ n ih =>
    rw [natToDigits]
    split
    · intro hc
      rw [List.mem_singleton] at hc
      exact digitChar_ne_paren n hc.symm
    · intro hc
      rcases List.mem_append.mp hc with hc | hc
      · exact ih (n / 10) (Nat.div_lt_self (by omega) (by omega)) hc
      · rw [List.mem_singleton] at hc
        exact digitChar_ne_paren _ hc.symm

theorem renderInt_ne_paren (i : Int) : '(' ∉ (renderInt i).data := by
  unfold renderInt
  split
  · show '(' ∉ '-' :: natToDigits (-i).toNat
    intro hc
    rcases List.mem_cons.mp hc with hc | hc
    · cases hc
    · exact natToDigits_ne_paren _ hc
  · exact natToDigits_ne_paren _

theorem renderFixed2_ne_paren (num den : Int) :
    '(' ∉ (renderFixed2 num den).data := by
  unfold renderFixed2
  apply noParen_append
  · apply noParen_append
    · exact renderInt_ne_paren _
    · decide
  · intro hc
    rcases List.mem_cons.mp hc with hc | hc
    · exact digitChar_ne_paren _ hc.symm
    · rw [List.mem_singleton] at hc
      exact digitChar_ne_paren _ hc.symm

theorem char_toNat_ofNat_valid (m : Nat) (h : m < 55296) :
    (Char.ofNat m).toNat = m := by
  have hv : m.isValidChar := Or.inl h
  rw [Char.ofNat, dif_pos hv]
  simp [Char.ofNatAux, Char.toNat, UInt32.toNat, BitVec.toNat_ofNatLt]

theorem toUpper_ne_paren (c : Char) (h : c ≠ '(') : c.toUpper ≠ '(' := by
  show (let n := c.toNat; if n ≥ 97 ∧ n ≤ 122 then Char.ofNat (n - 32) else c) ≠ '('
  by_cases hr : c.toNat ≥ 97 ∧ c.toNat ≤ 122
  · simp only [if_pos hr]
    intro heq
    have h40 : (Char.ofNat (c.toNat - 32)).toNat = '('.toNat := by rw [heq]
    rw [char_toNat_ofNat_valid _ (by omega)] at h40
    have h41 : '('.toNat = 40 := by decide
    omega
  · simp only [if_neg hr]
    exact h

theorem jsToUpper_ne_paren (s : String) (h : '(' ∉ s.data) :
    '(' ∉ (jsToUpper s).data := by
  show '(' ∉ s.data.map Char.toUpper
  intro hmem
  rcases List.mem_map.mp hmem with ⟨c, hc, heq⟩
  exact toUpper_ne_paren c (fun h2 => h (h2 ▸ hc)) heq

theorem formatRunStatus_ne_paren (st : String) (h : '(' ∉ st.data) :
    '(' ∉ (formatRunStatus st).data := by
  unfold formatRunStatus
  simp only []
  split
  · decide
  · split
    · decide
    · split
      · decide
      · split
        · decide
        · apply noParen_append
          · apply noParen_append
            · apply noParen_append
              · decide
              · apply jsToUpper_ne_paren
                intro hc
                exact h (List.take_subset 3 st.data hc)
            · decide
          · decide

theorem formatTimestamp_ne_paren (fmtTime : String → String) (ts : String)
    (h : ∀ x, '(' ∉ (fmtTime x).data) :
    '(' ∉ (formatTimestamp fmtTime ts).data := by
  unfold formatTimestamp
  split
  · intro hc; cases hc
  · apply noParen_append
    apply noParen_append
    · decide
    · exact h ts
    · decide

theorem noParen_append5 {a b c d e : String} (ha : '(' ∉ a.data)
    (hb : '(' ∉ b.data) (hc : '(' ∉ c.data) (hd : '(' ∉ d.data)
    (he : '(' ∉ e.data) : '(' ∉ (a ++ b ++ c ++ d ++ e).data :=
  noParen_append (noParen_append (noParen_append (noParen_append ha hb) hc) hd) he

theorem infix_running (a b c : String) :
    "(running)".data <:+: (a ++ b ++ c ++ " (running)" ++ cReset).data := by
  rw [String.data_append, String.data_append, String.data_append,
    String.data_append]
  exact List.IsInfix.trans (by decide) (List.infix_append _ _ _)

theorem calculateDuration_ne_paren (parseDate : String → Int) (now : Int)
    (start endOpt : Option String)
    (hdur : strFalsy start = true ∨ strTruthy endOpt = true) :
    '(' ∉ (calculateDuration parseDate now start endOpt).data := by
  unfold calculateDuration
  rcases hdur with h | h
  · rw [if_pos h]
    decide
  · have hf : strFalsy endOpt = false := by
      unfold strTruthy at h
      cases hb : strFalsy endOpt
      · rfl
      · rw [hb] at h; cases h
    by_cases hs : strFalsy start = true
    · rw [if_pos hs]
      decide
    · rw [if_neg hs]
      simp only [h, hf, if_true, Bool.false_eq_true, if_false]
      split
      · exact noParen_append5 (by decide) (renderInt_ne_paren _)
          (by decide) (by decide) (by decide)
      · split
        · exact noParen_append5 (by decide) (renderFixed2_ne_paren _ _)
            (by decide) (by decide) (by decide)
        · split
          · exact noParen_append5 (by decide) (renderFixed2_ne_paren _ _)
              (by decide) (by decide) (by decide)
          · exact noParen_append5 (by decide) (renderFixed2_ne_paren _ _)
              (by decide) (by decide) (by decide)

theorem calculateDuration_running (parseDate : String → Int) (now : Int)
    (start : Option String) (hs : strTruthy start = true) :
    containsStr (calculateDuration parseDate now start none) "(running)" := by
  have hf : strFalsy start = false := by
    unfold strTruthy at hs
    cases hb : strFalsy start
    · rfl
    · rw [hb] at hs; cases hs
  unfold containsStr calculateDuration
  rw [if_neg (by rw [hf]; exact Bool.false_ne_true)]
  simp only [strTruthy, strFalsy, Bool.not_true, Bool.false_eq_true, if_false,
    if_true]
  split
  · exact infix_running _ _ _
  · split
    · exact infix_running _ _ _
    · split
      · exact infix_running _ _ _
      · exact infix_running _ _ _

theorem noParen_versionChunk (fv : Option Int) :
    '(' ∉ (if intTruthy fv then " v" ++ renderInt (fv.getD 0) else "").data := by
  split
  · exact noParen_append (by decide) (renderInt_ne_paren _)
  · decide

theorem forall_ite_nil {p : String → Prop} {c : Prop} [Decidable c]
    {L : List String} (h : ∀ s ∈ L, p s) :
    ∀ s ∈ (if c then L else []), p s := by
  split
  · exact h
  · intro s hs; cases hs

theorem printRunStatus_noParen (parseDate : String → Int)
    (fmtTime : String → String) (now : Int)
    (rid st fid : Option String) (fv : Option Int)
    (eid sa ea : Option String) (out : Option (List String))
    (hdur : strFalsy sa = true ∨ strTruthy ea = true)
    (hrid : '(' ∉ (jsShowOpt rid).data)
    (hst : '(' ∉ (jsShowOpt st).data)
    (hfid : '(' ∉ (jsShowOpt fid).data)
    (heid : '(' ∉ (eid.getD "").data)
    (hout : ∀ ls, out = some ls → ∀ l ∈ ls, '(' ∉ l.data)
    (hfmt : ∀ x, '(' ∉ (fmtTime x).data) :
    '(' ∉ (printRunStatusStr parseDate fmtTime now
      { runId := rid, status := st, functionId := fid, functionVersion := fv,
        eventId := eid, startedAt := sa, endedAt := ea, output := out }).data := by
  apply noParen_concatStrs
  unfold printRunStatusChunks
  refine List.forall_mem_append.mpr ⟨List.forall_mem_append.mpr
    ⟨List.forall_mem_append.mpr ⟨List.forall_mem_append.mpr
      ⟨List.forall_mem_append.mpr ⟨?_, ?_⟩, ?_⟩, ?_⟩, ?_⟩, ?_⟩
  · simp only [List.forall_mem_cons, List.not_mem_nil, false_implies,
      implies_true, and_true]
    repeat' apply And.intro
    all_goals first
      | decide
      | exact hrid
      | exact hfid
      | exact formatRunStatus_ne_paren _ hst
      | exact noParen_versionChunk _
  · apply forall_ite_nil
    simp only [List.forall_mem_cons, List.not_mem_nil, false_implies,
      implies_true, and_true]
    repeat' apply And.intro
    all_goals first
      | decide
      | exact heid
  · apply forall_ite_nil
    simp only [List.forall_mem_cons, List.not_mem_nil, false_implies,
      implies_true, and_true]
    repeat' apply And.intro
    all_goals first
      | decide
      | exact formatTimestamp_ne_paren _ _ hfmt
  · apply forall_ite_nil
    simp only [List.forall_mem_cons, List.not_mem_nil, false_implies,
      implies_true, and_true]
    repeat' apply And.intro
    all_goals first
      | decide
      | exact formatTimestamp_ne_paren _ _ hfmt
  · simp only [List.forall_mem_cons, List.not_mem_nil, false_implies,
      implies_true, and_true]
    repeat' apply And.intro
    all_goals first
      | decide
      | exact calculateDuration_ne_paren _ _ _ _ hdur
  · cases hv : out with
    | none =>
      intro s hs; cases hs
    | some lines =>
      refine List.forall_mem_append.mpr ⟨?_, ?_⟩
      · simp only [List.forall_mem_cons, List.not_mem_nil, false_implies,
          implies_true, and_true]
        repeat' apply And.intro
        all_goals decide
      · intro s hs
        rcases List.mem_map.mp hs with ⟨line, hl, rfl⟩
        exact noParen_append5 (by decide) (by decide) (hout lines hv line hl)
          (by decide) (by decide)

theorem printRunStatus_hasRunning (parseDate : String → Int)
    (fmtTime : String → String) (now : Int)
    (rid st fid : Option String) (fv : Option Int)
    (eid sa : Option String) (out : Option (List String))
    (hsa : strTruthy sa = true) :
    containsStr (printRunStatusStr parseDate fmtTime now
      { runId := rid, status := st, functionId := fid, functionVersion := fv,
        eventId := eid, startedAt := sa, endedAt := none, output := out })
      "(running)" := by
  show "(running)".data <:+: _
  refine infix_concat_of_mem _ ?_ (calculateDuration_running parseDate now sa hsa)
  unfold printRunStatusChunks
  simp [List.mem_append, List.mem_cons]

/-! ## Claim theorems -/

theorem isDigit_ne_T_dash {c : Char} (h : c.isDigit = true) :
    c ≠ 'T' ∧ c ≠ '-' := by
  constructor
  · intro he; rw [he] at h; cases h
  · intro he; rw [he] at h; cases h

theorem relMatch_digits (ds : List Char) (u : Char) (hne : ds ≠ [])
    (hdig : ∀ c ∈ ds, c.isDigit = true)
    (hu : u = 's' ∨ u = 'm' ∨ u = 'h' ∨ u = 'd') :
    relMatch (String.mk (ds ++ [u])) = some (digitsToNat ds, u) := by
  unfold relMatch
  show (match (ds ++ [u]).reverse with
    | [] => none
    | u :: rds =>
      let ds := rds.reverse
      if !ds.isEmpty && ds.all Char.isDigit &&
          (u == 's' || u == 'm' || u == 'h' || u == 'd') then
        some (digitsToNat ds, u)
      else none) = some (digitsToNat ds, u)
  rw [List.reverse_append, List.reverse_singleton]
  show (if !(ds.reverse.reverse).isEmpty && (ds.reverse.reverse).all Char.isDigit &&
      (u == 's' || u == 'm' || u == 'h' || u == 'd') then
    some (digitsToNat ds.reverse.reverse, u)
  else none) = some (digitsToNat ds, u)
  rw [List.reverse_reverse]
  rw [if_pos]
  rw [Bool.and_eq_true, Bool.and_eq_true]
  refine ⟨⟨?_, ?_⟩, ?_⟩
  · cases ds with
    | nil => exact absurd rfl hne
    | cons a t => rfl
  · rw [List.all_eq_true]
    exact hdig
  · rcases hu with rfl | rfl | rfl | rfl <;> decide

theorem parseTime_no_iso_chars (ds : List Char) (u : Char)
    (hdig : ∀ c ∈ ds, c.isDigit = true)
    (hu : u = 's' ∨ u = 'm' ∨ u = 'h' ∨ u = 'd') :
    ((ds ++ [u]).contains 'T' || (ds ++ [u]).contains '-') = false := by
  have hmem : ∀ x : Char, x ∈ ds ++ [u] → x ≠ 'T' ∧ x ≠ '-' := by
    intro x hx
    rcases List.mem_append.mp hx with hx | hx
    · exact isDigit_ne_T_dash (hdig x hx)
    · rw [List.mem_singleton] at hx
      subst hx
      rcases hu with rfl | rfl | rfl | rfl <;> exact ⟨by decide, by decide⟩
  rw [Bool.or_eq_false_iff]
  constructor
  · rw [Bool.eq_false_iff]
    intro hc
    exact (hmem 'T' (List.elem_iff.mp hc)).1 rfl
  · rw [Bool.eq_false_iff]
    intro hc
    exact (hmem '-' (List.elem_iff.mp hc)).2 rfl

/-- C1: for every relative-duration input `<digits><unit>` with
`unit ∈ {s, m, h, d}`, `parseTime` resolves to the ISO rendering of
`now` minus the stated duration; and every ISO-8601-shaped literal is
returned unchanged. -/
theorem C1_parseTime_resolution (isoOfMs : Int → String) (now : Int) :
    (∀ (ds : List Char) (u : Char), ds ≠ [] →
      (∀ c ∈ ds, c.isDigit = true) →
      (u = 's' ∨ u = 'm' ∨ u = 'h' ∨ u = 'd') →
      parseTime isoOfMs now (String.mk (ds ++ [u])) =
        .ok (isoOfMs (now - (digitsToNat ds : Int) * unitMs u)))
    ∧ (∀ s, isIsoLiteral s = true → parseTime isoOfMs now s = .ok s) := by
  constructor
  · intro ds u hne hdig hu
    unfold parseTime
    rw [if_neg (by
      rw [parseTime_no_iso_chars ds u hdig hu]
      exact Bool.false_ne_true)]
    rw [relMatch_digits ds u hne hdig hu]
    rcases hu with rfl | rfl | rfl | rfl
    · rfl
    · show Except.ok (isoOfMs (now - (digitsToNat ds : Int) * 60 * 1000)) = _
      refine congrArg (fun x => Except.ok (isoOfMs x)) ?_
      show now - (digitsToNat ds : Int) * 60 * 1000 =
        now - (digitsToNat ds : Int) * unitMs 'm'
      unfold unitMs
      ring_nf
    · show Except.ok (isoOfMs (now - (digitsToNat ds : Int) * 60 * 60 * 1000)) = _
      refine congrArg (fun x => Except.ok (isoOfMs x)) ?_
      show now - (digitsToNat ds : Int) * 60 * 60 * 1000 =
        now - (digitsToNat ds : Int) * unitMs 'h'
      unfold unitMs
      ring_nf
    · show Except.ok (isoOfMs (now - (digitsToNat ds : Int) * 24 * 60 * 60 * 1000)) = _
      refine congrArg (fun x => Except.ok (isoOfMs x)) ?_
      show now - (digitsToNat ds : Int) * 24 * 60 * 60 * 1000 =
        now - (digitsToNat ds : Int) * unitMs 'd'
      unfold unitMs
      ring_nf
  · intro s h
    unfold isIsoLiteral at h
    split at h
    · rename_i y1 y2 y3 y4 m1 m2 d1 d2 tl heq
      unfold parseTime
      rw [if_pos (by
        rw [Bool.or_eq_true]
        right
        rw [heq]
        exact List.elem_iff.mpr (by simp))]
    · cases h

/-- Witness for C1: `"30m"` resolves to `now - 30 * 60 * 1000` and a
concrete ISO literal passes through unchanged. -/
theorem C1_parseTime_resolution_witness :
    parseTime (fun ms => renderInt ms) 0 "30m" =
      .ok (renderInt (0 - (30 : Int) * unitMs 'm')) ∧
    parseTime (fun ms => renderInt ms) 0 "2024-01-01T00:00:00.000Z" =
      .ok "2024-01-01T00:00:00.000Z" := by
  constructor
  · exact (C1_parseTime_resolution (fun ms => renderInt ms) 0).1
      ['3', '0'] 'm' (by decide) (by decide) (Or.inr (Or.inl rfl))
  · exact (C1_parseTime_resolution (fun ms => renderInt ms) 0).2
      "2024-01-01T00:00:00.000Z" (by decide)

theorem relMatch_unit {s : String} {v : Nat} {u : Char}
    (h : relMatch s = some (v, u)) :
    u = 's' ∨ u = 'm' ∨ u = 'h' ∨ u = 'd' := by
  unfold relMatch at h
  split at h
  · cases h
  · rename_i xs u0 rds heq
    simp only [] at h
    split at h
    · rename_i hcond
      injection h with h2
      rw [Bool.and_eq_true, Bool.and_eq_true] at hcond
      obtain ⟨⟨_, _⟩, hor⟩ := hcond
      have h3 : u0 = u := congrArg Prod.snd h2
      subst h3
      simp only [Bool.or_eq_true, beq_iff_eq] at hor
      tauto
    · cases h

/-- C4 counterexample: `"foo-bar"` is neither ISO-8601-shaped nor a
relative duration, yet `parseTime` silently accepts it (the `-`/`T`
heuristic passes it through unchanged). -/
theorem C4_counterexample :
    isIsoLiteral "foo-bar" = false ∧ relMatch "foo-bar" = none ∧
    parseTime (fun _ => "") 0 "foo-bar" = .ok "foo-bar" := by
  exact ⟨by decide, by decide, rfl⟩

/-- C4 amended: `parseTime` fails — with the descriptive message — exactly
on inputs that contain neither `T` nor `-` and do not match
`<int><s|m|h|d>`; any input containing `T` or `-` is returned unchanged
without validation, even when it is not an ISO-8601 literal. -/
theorem C4_parseTime_errors (isoOfMs : Int → String) (now : Int) (s : String) :
    ((∃ e, parseTime isoOfMs now s = .error e) ↔
      (s.data.contains 'T' = false ∧ s.data.contains '-' = false ∧
        relMatch s = none))
    ∧ (s.data.contains 'T' = false → s.data.contains '-' = false →
       relMatch s = none →
       parseTime isoOfMs now s = .error ("Invalid time format: " ++ s ++
         ". Use ISO format or relative time (e.g., 1h, 30m, 2d)"))
    ∧ ((s.data.contains 'T' = true ∨ s.data.contains '-' = true) →
       parseTime isoOfMs now s = .ok s) := by
  refine ⟨⟨?_, ?_⟩, ?_, ?_⟩
  · rintro ⟨e, he⟩
    by_cases hc : (s.data.contains 'T' || s.data.contains '-') = true
    · unfold parseTime at he
      rw [if_pos hc] at he
      cases he
    · rw [Bool.or_eq_true, not_or] at hc
      obtain ⟨h1, h2⟩ := hc
      refine ⟨Bool.eq_false_iff.mpr h1, Bool.eq_false_iff.mpr h2, ?_⟩
      cases hr : relMatch s with
      | none => rfl
      | some p =>
        obtain ⟨v, u⟩ := p
        unfold parseTime at he
        rw [if_neg (by
          rw [Bool.eq_false_iff.mpr h1, Bool.eq_false_iff.mpr h2]
          exact Bool.false_ne_true)] at he
        rw [hr] at he
        rcases relMatch_unit hr with rfl | rfl | rfl | rfl <;> cases he
  · rintro ⟨h1, h2, h3⟩
    refine ⟨"Invalid time format: " ++ s ++
      ". Use ISO format or relative time (e.g., 1h, 30m, 2d)", ?_⟩
    unfold parseTime
    rw [if_neg (by rw [h1, h2]; exact Bool.false_ne_true)]
    rw [h3]
  · intro h1 h2 h3
    unfold parseTime
    rw [if_neg (by rw [h1, h2]; exact Bool.false_ne_true)]
    rw [h3]
  · intro h
    unfold parseTime
    rw [if_pos (by rw [Bool.or_eq_true]; exact h)]

/-- Witness for C4: `"5x"` fails with the descriptive message. -/
theorem C4_parseTime_errors_witness :
    parseTime (fun _ => "") 0 "5x" =
      .error ("Invalid time format: 5x" ++
        ". Use ISO format or relative time (e.g., 1h, 30m, 2d)") := by
  have h := (C4_parseTime_errors (fun _ => "") 0 "5x").2.1
    (by decide) (by decide) (by decide)
  simpa using h

/-- Does an operation result carry the explicit not-found domain error? -/
def isNotFound {α : Type} : Except CliErr α → Bool
  | .error (.notFound _) => true
  | _ => false

/-- C2 counterexample: on a `data: null` payload, `getEvent` does NOT fail
with an explicit not-found error — it fails with the TypeError of
dereferencing the absent payload — so the claim is false for the
get-event-by-id lookup. -/
theorem C2_counterexample :
    isNotFound (getEvent (fun _ => "") "evt-1" none) = false ∧
    getEvent (fun _ => "") "evt-1" none =
      .error (.jsTypeError "Cannot read properties of null") := by
  exact ⟨rfl, rfl⟩

/-- C2 amended: on a null/absent `data` payload, `getRun` fails with the
explicit `"Run not found: <id>"` domain error, while `getEvent` fails with
a TypeError from dereferencing the null payload, not with a not-found
domain error. -/
theorem C2_null_payload (runId eventId : String) (isoOfMs : Int → String) :
    getRun runId none = .error (.notFound ("Run not found: " ++ runId)) ∧
    getEvent isoOfMs eventId none =
      .error (.jsTypeError "Cannot read properties of null") ∧
    isNotFound (getEvent isoOfMs eventId none) = false := by
  exact ⟨rfl, rfl, rfl⟩

/-- C3 counterexample: the `getRun` normalization reads only the
snake_case spellings, so the same run given with camelCase field names
normalizes to a different result (its `runId` comes out `undefined`). -/
theorem C3_counterexample :
    normalizeRun
        { runId := some "run-1", status := some "Completed",
          functionId := some "fn-1",
          startedAt := some "2024-01-01T10:00:00Z" } ≠
      normalizeRun
        { run_id := some "run-1", status := some "Completed",
          function_id := some "fn-1",
          run_started_at := some "2024-01-01T10:00:00Z" } ∧
    (normalizeRun
        { runId := some "run-1", status := some "Completed",
          functionId := some "fn-1",
          startedAt := some "2024-01-01T10:00:00Z" }).runId = none := by
  exact ⟨by decide, rfl⟩

theorem jsOrEmpty_symm (a : Option String) : jsOrEmpty a none = jsOrEmpty none a := by
  rcases a with _ | s
  · rfl
  · by_cases h : s = "" <;> simp [jsOrEmpty, jsOr, strFalsy, h]

theorem jsOr_symm_nonempty (a : Option String) (h : a ≠ some "") :
    jsOr a none = jsOr none a := by
  rcases a with _ | s
  · rfl
  · have hs : (s == "") = false := by
      rw [beq_eq_false_iff_ne]
      intro hh
      exact h (by rw [hh])
    simp [jsOr, strFalsy, hs]

/-- C3 amended: the jobs and event-runs normalizations tolerate either
spelling — the result is the same whether a (present, non-empty) field
arrives in snake_case or in camelCase — but the `getRun` normalization
reads only the snake_case spellings and ignores the camelCase fields
entirely. -/
theorem C3_normalization_case (jid sid st sa ea out er : Option String)
    (rid fid fv rout : Option String)
    (hsa : sa ≠ some "") (hea : ea ≠ some "") (hfv : fv ≠ some "") :
    (normalizeJob
        { job_id := jid, step_id := sid, status := st,
          started_at := sa, ended_at := ea, output := out, error := er } =
      normalizeJob
        { jobId := jid, stepId := sid, status := st,
          startedAt := sa, endedAt := ea, output := out, error := er })
    ∧ (normalizeEventRun
        { run_id := rid, status := st, function_id := fid,
          function_version := fv, started_at := sa, ended_at := ea,
          output := rout } =
      normalizeEventRun
        { runId := rid, status := st, functionId := fid,
          functionVersion := fv, startedAt := sa, endedAt := ea,
          output := rout })
    ∧ (∀ raw : RawRun, normalizeRun raw = normalizeRun
        { run_id := raw.run_id, status := raw.status,
          function_id := raw.function_id,
          function_version := raw.function_version,
          event_id := raw.event_id, run_started_at := raw.run_started_at,
          ended_at := raw.ended_at, output := raw.output }) := by
  refine ⟨?_, ?_, ?_⟩
  · simp [normalizeJob, RunJob.mk.injEq, jsOrEmpty_symm,
      jsOr_symm_nonempty, hsa, hea]
  · simp [normalizeEventRun, EventRun.mk.injEq, jsOrEmpty_symm,
      jsOr_symm_nonempty, hsa, hea, hfv]
  · intro raw
    rfl

/-- Witness for C3: a concrete job normalizes identically from either
spelling. -/
theorem C3_normalization_case_witness :
    normalizeJob
        { job_id := some "j1", step_id := some "s1",
          status := some "Completed", started_at := some "t1" } =
      normalizeJob
        { jobId := some "j1", stepId := some "s1",
          status := some "Completed", startedAt := some "t1" } :=
  (C3_normalization_case (some "j1") (some "s1") (some "Completed")
    (some "t1") none none none none none none none
    (by decide) (by decide) (by decide)).1

/-- C5 counterexample: a run with NO end timestamp but also no start
timestamp renders its duration as "not started" — the pretty output does
not contain "(running)" — so "no end timestamp implies the output
contains (running)" is false as stated. -/
theorem C5_counterexample :
    ¬ containsStr (printRunStatusStr (fun _ => 0) (fun _ => "") 0
      { runId := some "r1", status := some "Running",
        functionId := some "f1" }) "(running)" := by
  decide

/-- C5 amended: if the run has a start timestamp and no end timestamp the
pretty output contains the literal "(running)"; if it has no start
timestamp, or a (non-empty) end timestamp, the output does not — provided
the run's own text fields and the clock rendering contain no "(", which
the formatter's fixed chunks guarantee for everything it adds itself. -/
theorem C5_running_marker (parseDate : String → Int)
    (fmtTime : String → String) (now : Int) (run : RunStatus)
    (hfmt : ∀ x, '(' ∉ (fmtTime x).data)
    (hrid : '(' ∉ (jsShowOpt run.runId).data)
    (hst : '(' ∉ (jsShowOpt run.status).data)
    (hfid : '(' ∉ (jsShowOpt run.functionId).data)
    (heid : '(' ∉ (run.eventId.getD "").data)
    (hout : ∀ ls, run.output = some ls → ∀ l ∈ ls, '(' ∉ l.data) :
    (strTruthy run.startedAt = true → run.endedAt = none →
      containsStr (printRunStatusStr parseDate fmtTime now run) "(running)")
    ∧ (strFalsy run.startedAt = true →
      ¬ containsStr (printRunStatusStr parseDate fmtTime now run) "(running)")
    ∧ (strTruthy run.endedAt = true →
      ¬ containsStr (printRunStatusStr parseDate fmtTime now run) "(running)") := by
  obtain ⟨rid, st, fid, fv, eid, sa, ea, out⟩ := run
  refine ⟨?_, ?_, ?_⟩
  · intro hsa hea
    cases hea
    exact printRunStatus_hasRunning parseDate fmtTime now rid st fid fv eid
      sa out hsa
  · intro hsa
    exact not_containsStr_of_noParen (by decide)
      (printRunStatus_noParen parseDate fmtTime now rid st fid fv eid sa ea
        out (Or.inl hsa) hrid hst hfid heid hout hfmt)
  · intro hea
    exact not_containsStr_of_noParen (by decide)
      (printRunStatus_noParen parseDate fmtTime now rid st fid fv eid sa ea
        out (Or.inr hea) hrid hst hfid heid hout hfmt)

/-- Witness for C5: a concrete started, unfinished run renders
"(running)". -/
theorem C5_running_marker_witness :
    containsStr (printRunStatusStr (fun _ => 0) (fun _ => "") 5000
      { runId := some "r", status := some "Running",
        functionId := some "f", startedAt := some "t0" }) "(running)" :=
  (C5_running_marker (fun _ => 0) (fun _ => "") 5000
    { runId := some "r", status := some "Running",
      functionId := some "f", startedAt := some "t0" }
    (fun x => List.not_mem_nil '(') (by decide) (by decide) (by decide)
    (by decide) (fun ls h => Option.noConfusion h)).1 (by decide) rfl

/-- C6: `apiRequest` fails before any HTTP call when the client is
non-dev and no signing credential is present (the result is the auth
error, independent of the response), and any completed non-2xx response
yields an error carrying the status code and the server-provided message
when the body parses as JSON with a non-empty `error` field, else the raw
body text. -/
theorem C6_apiRequest_errors {α : Type} (client : ClientConfig)
    (resp : FetchResult α) :
    (boolTruthy client.dev = false → strFalsy client.signingKey = true →
      (apiRequest client resp = .error (.authMissing
        "INNGEST_SIGNING_KEY environment variable is required for API requests")
       ∧ ∀ resp2 : FetchResult α,
           apiRequest client resp = apiRequest client resp2))
    ∧ ((boolTruthy client.dev = true ∨ strFalsy client.signingKey = false) →
      responseOk resp.status = false →
      apiRequest client resp = .error (.httpError resp.status
        ("API request failed (" ++ toString resp.status ++ "): " ++
          remoteMessage resp)))
    ∧ (∀ m, resp.errorField = some (some m) → m ≠ "" →
        remoteMessage resp = m)
    ∧ ((resp.errorField = none ∨ resp.errorField = some none ∨
        resp.errorField = some (some "")) →
        remoteMessage resp = resp.bodyText) := by
  refine ⟨?_, ?_, ?_, ?_⟩
  · intro h1 h2
    have hc : (!boolTruthy client.dev && strFalsy client.signingKey) = true := by
      rw [h1, h2]; rfl
    constructor
    · unfold apiRequest
      rw [if_pos hc]
    · intro resp2
      unfold apiRequest
      rw [if_pos hc, if_pos hc]
  · intro h1 h2
    have hc : (!boolTruthy client.dev && strFalsy client.signingKey) = false := by
      rcases h1 with h | h <;> rw [h] <;> simp
    unfold apiRequest
    rw [if_neg (by rw [hc]; exact Bool.false_ne_true)]
    rw [if_pos (by rw [h2]; rfl)]
  · intro m hm hne
    unfold remoteMessage
    rw [hm]
    simp [hne]
  · intro h
    rcases h with h | h | h <;> simp [remoteMessage, h]

/-- A concrete 404 response with body `{error: "Not found"}`, for the C6
witness. -/
def notFoundResp : FetchResult Nat :=
  { status := 404, bodyText := "oops", errorField := some (some "Not found"),
    payload := 0 }

/-- A production client with no signing key, for the C6 witness. -/
def clientNoKey : ClientConfig := { baseUrl := "https://api.inngest.com" }

/-- A production client with a signing key, for the C6 witness. -/
def clientWithKey : ClientConfig :=
  { baseUrl := "https://api.inngest.com", signingKey := some "k" }

/-- Witness for C6: a missing signing key in non-dev mode fails with the
auth error; with a key present, a 404 with body `{error: "Not found"}`
fails with status 404 and the server message. -/
theorem C6_apiRequest_errors_witness :
    apiRequest clientNoKey notFoundResp =
      .error (.authMissing
        "INNGEST_SIGNING_KEY environment variable is required for API requests")
    ∧ apiRequest clientWithKey notFoundResp =
      .error (.httpError 404
        ("API request failed (" ++ toString 404 ++ "): " ++
          remoteMessage notFoundResp)) := by
  constructor
  · exact ((C6_apiRequest_errors clientNoKey notFoundResp).1 rfl rfl).1
  · exact (C6_apiRequest_errors clientWithKey notFoundResp).2.1
      (Or.inr rfl) rfl

/-- C7: the router's required-argument checks fail fast with exit 1 and
the stated one-line messages: `events send` without `--name`, `events
send` with neither `--data` nor `--data-file`, and `runs list` without
`--event`. -/
theorem C7_required_args (subArgs : List String) :
    (strFalsy (getArg (parseNamedArgs subArgs) "name") = true →
      handleEvents ("send" :: subArgs) = .errorExit "--name is required")
    ∧ (strFalsy (getArg (parseNamedArgs subArgs) "name") = false →
       strFalsy (getArg (parseNamedArgs subArgs) "data") = true →
       strFalsy (getArg (parseNamedArgs subArgs) "data-file") = true →
       handleEvents ("send" :: subArgs) =
         .errorExit "--data or --data-file is required")
    ∧ (strFalsy (getArg (parseNamedArgs subArgs) "event") = true →
       handleRuns ("list" :: subArgs) = .errorExit "--event is required") := by
  refine ⟨?_, ?_, ?_⟩
  · intro h1
    simp [handleEvents, h1]
  · intro h1 h2 h3
    simp [handleEvents, h1, h2, h3]
  · intro h1
    simp [handleRuns, h1]

/-- Witness for C7: concrete invocations produce the three messages. -/
theorem C7_required_args_witness :
    handleEvents ["send", "--data", "x"] = .errorExit "--name is required"
    ∧ handleEvents ["send", "--name", "e"] =
        .errorExit "--data or --data-file is required"
    ∧ handleRuns ["list"] = .errorExit "--event is required" := by
  refine ⟨?_, ?_, ?_⟩
  · exact (C7_required_args ["--data", "x"]).1 (by decide)
  · exact (C7_required_args ["--name", "e"]).2.1 (by decide) (by decide)
      (by decide)
  · exact (C7_required_args []).2.2 (by decide)

/-- C8: `printOutput` selects exactly one of the three modes and a
(truthy) `--output` path takes precedence over `--pretty`: with a path
nothing is pretty-printed; with no path, pretty selects colorized text,
else compact JSON goes to stdout. -/
theorem C8_output_mode {α : Type} (result : α) (options : OutputOptions) :
    (∀ p, options.output = some p → p ≠ "" →
      printOutputMode result options = .writeFile p)
    ∧ (strTruthy options.output = false → boolTruthy options.pretty = true →
      printOutputMode result options = .prettyText)
    ∧ (strTruthy options.output = false → boolTruthy options.pretty = false →
      printOutputMode result options = .jsonStdout) := by
  refine ⟨?_, ?_, ?_⟩
  · intro p hp hne
    have hb : (p == "") = false := beq_eq_false_iff_ne.mpr hne
    simp [printOutputMode, strTruthy, strFalsy, hp, hb]
  · intro h1 h2
    simp [printOutputMode, h1, h2]
  · intro h1 h2
    simp [printOutputMode, h1, h2]

/-- Witness for C8: with both a file path and the pretty flag, the file
path wins. -/
theorem C8_output_mode_witness :
    printOutputMode (0 : Nat)
      { pretty := some true, output := some "/tmp/out.json" } =
      .writeFile "/tmp/out.json" :=
  (C8_output_mode (0 : Nat)
    { pretty := some true, output := some "/tmp/out.json" }).1
    "/tmp/out.json" rfl (by decide)

/-- C9: an empty array result is classified as an event-run list — the
run-array guard accepts the empty array while the job-array guard
requires a non-empty one — so pretty-printing an empty job list prints
"No runs found for this event" and never the jobs-specific empty
message. -/
theorem C9_empty_array_classification :
    printPrettyBranch (.arr []) = .eventRuns
    ∧ isEventRunArrayG (.arr []) = true
    ∧ isRunJobArrayG (.arr []) = false
    ∧ containsStr (printEventRunsStr (fun _ => 0) (fun _ => "") [])
        "No runs found for this event"
    ∧ ¬ containsStr (printEventRunsStr (fun _ => 0) (fun _ => "") [])
        "No jobs found for this run" := by
  exact ⟨rfl, rfl, rfl, by decide, by decide⟩

theorem dropWhile_all_ne {l : List Char} (h : '=' ∉ l) :
    l.dropWhile (fun c => !(c == '=')) = [] := by
  induction l with
  | nil => rfl
  | cons a t ih =>
    have ha : (a == '=') = false := by
      rw [beq_eq_false_iff_ne]
      intro he
      exact h (he ▸ List.mem_cons_self a t)
    rw [List.dropWhile_cons]
    rw [if_pos (by rw [ha]; rfl)]
    exact ih (fun hm => h (List.mem_cons_of_mem a hm))

/-- C10: a `--key` token that contains no `=` and is followed by another
`--` token (or is the last token) is silently dropped by
`parseNamedArgs`: parsing continues as if the token were absent and the
key gets no entry, so a later required-argument check reports the flag as
missing. -/
theorem C10_dangling_flag (key : String) (rest : List String)
    (h1 : strStartsWith key "--" = true)
    (h2 : '=' ∉ key.data)
    (h3 : rest = [] ∨ ∃ n t, rest = n :: t ∧ strStartsWith n "--" = true) :
    parseNamedArgs (key :: rest) = parseNamedArgs rest
    ∧ getArg (parseNamedArgs [key]) (String.mk (key.data.drop 2)) = none := by
  have hgo : ∀ (r : List String), (r = [] ∨
      ∃ n t, r = n :: t ∧ strStartsWith n "--" = true) →
      ∀ acc, parseNamedArgsGo (key :: r) acc = parseNamedArgsGo r acc := by
    intro r hr acc
    rcases hr with rfl | ⟨n, t, rfl, hn⟩
    · simp only [parseNamedArgsGo]
      rw [if_pos h1, dropWhile_all_ne h2]
    · conv =>
        lhs
        rw [parseNamedArgsGo]
      rw [if_pos h1, dropWhile_all_ne h2]
      rw [if_neg (by rw [hn]; decide)]
  constructor
  · exact hgo rest h3 []
  · have h4 : parseNamedArgs [key] = [] := by
      show parseNamedArgsGo [key] [] = []
      rw [hgo [] (Or.inl rfl) []]
      rfl
    rw [h4]
    rfl

/-- Witness for C10: `--name` followed by `--data` is dropped, and a lone
`--name` leaves the map empty. -/
theorem C10_dangling_flag_witness :
    parseNamedArgs ["--name", "--data"] = parseNamedArgs ["--data"]
    ∧ getArg (parseNamedArgs ["--name"]) "name" = none := by
  have h := C10_dangling_flag "--name" ["--data"] (by decide) (by decide)
    (Or.inr ⟨"--data", [], rfl, by decide⟩)
  exact ⟨h.1, h.2⟩

end InngestCtl
